import Mathlib

/-!
Verification of the standard naming system of the Furnishedv3 three.js
viewer (src/standardNaming.js): name parsing, scene scanning,
per-axis feature controls, attachment propagation and GUI lifecycle.

Strings are modelled as lists of characters (`Str`), so that every
operation of the JavaScript source (startsWith, substring, split,
join, toLowerCase, toUpperCase) is a structurally recursive, fully
executable Lean function.  Numeric values are modelled as rationals.
The scene-graph host (three.js) is modelled as an abstract `Host`
providing world-position queries and world-to-local conversion, and
the angle conversions of THREE.MathUtils are abstract parameters,
exactly as the spec places those collaborators out of scope.
-/

/-- Strings as character sequences. -/
abbrev Str := List Char

/-- Coerce a Lean string literal to the character-sequence model. -/
def str (s : String) : Str := s.toList

/-- JavaScript `s.startsWith(p)`. -/
def startsWithL : Str → Str → Bool
  | _, [] => true
  | [], _ :: _ => false
  | c :: s, p :: ps => c == p && startsWithL s ps

/-- JavaScript `s.split('_')`: always returns at least one segment;
adjacent separators produce empty segments. -/
def splitOnU : Str → List Str
  | [] => [[]]
  | c :: rest =>
    let r := splitOnU rest
    if c = '_' then [] :: r
    else
      match r with
      | [] => [[c]]
      | h :: t => (c :: h) :: t

/-- JavaScript `segments.join('_')`. -/
def joinU : List Str → Str
  | [] => []
  | [s] => s
  | s :: rest => s ++ '_' :: joinU rest

/-- JavaScript `s.toLowerCase()` (basic-latin letters). -/
def toLowerS (s : Str) : Str := s.map Char.toLower

/-- Parsed feature descriptor, from `parseFeatureName` in
src/standardNaming.js. -/
structure FeatureInfo where
  axes : Str
  operation : Str
  objectName : Str
  fullName : Str
deriving Repr, DecidableEq

/-- Parsed attachment/pivot descriptor, from `parseAttachmentName` in
src/standardNaming.js. -/
structure AttachInfo where
  type : Str
  targetName : Str
  fullName : Str
deriving Repr, DecidableEq

/-- `parseFeatureName` of src/standardNaming.js: names such as
`Feature_XY_Scale_Box1` give axes `XY`, operation `Scale`, object name
`Box1`; anything else gives `none`. -/
def parseFeatureName (name : Str) : Option FeatureInfo :=
  if startsWithL name (str "Feature_") then
    let parts := splitOnU (name.drop 8)
    if parts.length < 3 then none
    else
      some { axes := (parts.getD 0 []).filter (fun c => ['X', 'Y', 'Z'].contains c.toUpper)
             operation := parts.getD 1 []
             objectName := joinU (parts.drop 2)
             fullName := name }
  else none

/-- `parseAttachmentName` of src/standardNaming.js: `Attached_leg1` and
`Pivot_leg1` give descriptors, anything else gives `none`. -/
def parseAttachmentName (name : Str) : Option AttachInfo :=
  if startsWithL name (str "Attached_") then
    some { type := str "Attached", targetName := name.drop 9, fullName := name }
  else if startsWithL name (str "Pivot_") then
    some { type := str "Pivot", targetName := name.drop 6, fullName := name }
  else none

/-- A 3-component vector of the scene graph, over the rationals. -/
structure Vec3 where
  x : ℚ
  y : ℚ
  z : ℚ
deriving Repr, DecidableEq

/-- A scene-graph node: name, optional parent (by node id), and the
three mutable transform vectors. -/
structure Obj where
  name : Str
  parent : Option Nat
  position : Vec3
  rotation : Vec3
  scale : Vec3
deriving Repr, DecidableEq

/-- Placeholder node used for out-of-range node ids; its name is empty
so it is never classified. -/
def defaultObj : Obj :=
  { name := [], parent := none, position := ⟨0, 0, 0⟩, rotation := ⟨0, 0, 0⟩,
    scale := ⟨1, 1, 1⟩ }

/-- A scene is the list of its nodes; a node id is an index. -/
abbrev Scene := List Obj

/-- Read the node with a given id. -/
def objAt (s : Scene) (i : Nat) : Obj := s.getD i defaultObj

/-- Replace the position of node `i`. -/
def setPosition (s : Scene) (i : Nat) (p : Vec3) : Scene :=
  s.set i { objAt s i with position := p }

/-- The `objectMap` built by the scan: a JavaScript `Map` from node
name to node, where a later `set` overwrites an earlier one.  It is
represented as an association list whose most recent insertion comes
first. -/
abbrev ObjectMap := List (Str × Nat)

/-- JavaScript `map.set(k, v)`. -/
def mapSet (m : ObjectMap) (k : Str) (v : Nat) : ObjectMap := (k, v) :: m

/-- JavaScript `map.get(k)` (`none` plays the role of `undefined`). -/
def mapGet (m : ObjectMap) (k : Str) : Option Nat := m.lookup k

/-- A feature record pushed by `findStandardObjects`: the parsed
descriptor spread together with the owning node. -/
structure FeatureEntry where
  info : FeatureInfo
  object : Nat
deriving Repr, DecidableEq

/-- An attachment/pivot record pushed by `findStandardObjects`. -/
structure AttachEntry where
  info : AttachInfo
  object : Nat
deriving Repr, DecidableEq

/-- The four collections returned by `findStandardObjects`. -/
structure ScanResult where
  features : List FeatureEntry
  attachments : List AttachEntry
  pivots : List AttachEntry
  objectMap : ObjectMap
deriving Repr, DecidableEq

/-- The body of the `model.traverse` callback in `findStandardObjects`:
skip unnamed nodes, index the node, then classify it (feature parse
first, attachment parse only if the feature parse failed). -/
def scanStep (s : Scene) (r : ScanResult) (i : Nat) : ScanResult :=
  let child := objAt s i
  if child.name = [] then r
  else
    let r1 : ScanResult := { r with objectMap := mapSet r.objectMap child.name i }
    match parseFeatureName child.name with
    | some f => { r1 with features := r1.features ++ [⟨f, i⟩] }
    | none =>
      match parseAttachmentName child.name with
      | some a =>
        if a.type = str "Attached" then { r1 with attachments := r1.attachments ++ [⟨a, i⟩] }
        else if a.type = str "Pivot" then { r1 with pivots := r1.pivots ++ [⟨a, i⟩] }
        else r1
      | none => r1

/-- `findStandardObjects` of src/standardNaming.js, with the host's
traversal order supplied as the list of visited node ids. -/
def findStandardObjects (s : Scene) (order : List Nat) : ScanResult :=
  order.foldl (scanStep s) ⟨[], [], [], []⟩

/-- The scene-graph host interface consumed by the core: a world
position query and a world-to-local conversion relative to a given
node, both provided by three.js and out of scope for this spec. -/
structure Host where
  getWorldPosition : Scene → Nat → Vec3
  worldToLocal : Scene → Nat → Vec3 → Vec3

/-- The body of the `attachments.forEach` callback in
`processAttachments`: resolve `Pivot_<target>` then
`Attached_<target>`, and if found move the attachment to the target's
world position converted into the attachment parent's space. -/
def attachStep (host : Host) (m : ObjectMap) (s : Scene) (a : AttachEntry) : Scene :=
  match (mapGet m (str "Pivot_" ++ a.info.targetName)).orElse
      (fun _ => mapGet m (str "Attached_" ++ a.info.targetName)) with
  | none => s
  | some t =>
    let worldPos := host.getWorldPosition s t
    let localPos :=
      match (objAt s a.object).parent with
      | some p => host.worldToLocal s p worldPos
      | none => worldPos
    setPosition s a.object localPos

/-- `processAttachments` of src/standardNaming.js. -/
def processAttachments (host : Host) (atts : List AttachEntry) (m : ObjectMap)
    (s : Scene) : Scene :=
  atts.foldl (attachStep host m) s

/-- Component read `v[c]` for an axis letter already lower-cased. -/
def axisComp (v : Vec3) (c : Char) : ℚ :=
  if c = 'x' then v.x else if c = 'y' then v.y else if c = 'z' then v.z else 0

/-- The per-axis branch shared by `applyFeatureScale` and
`applyFeatureRotation`: lower-case the axis letter and overwrite the
matching component, ignoring anything else. -/
def setAxis (v : Vec3) (c : Char) (val : ℚ) : Vec3 :=
  if c.toLower = 'x' then { v with x := val }
  else if c.toLower = 'y' then { v with y := val }
  else if c.toLower = 'z' then { v with z := val }
  else v

/-- `applyFeatureScale` of src/standardNaming.js. -/
def applyFeatureScale (s : Scene) (i : Nat) (axes : Str) (value : ℚ) : Scene :=
  s.set i { objAt s i with
            scale := axes.foldl (fun sc ax => setAxis sc ax value) (objAt s i).scale }

/-- `applyFeatureRotation` of src/standardNaming.js; `d2r` is
`THREE.MathUtils.degToRad`, an external collaborator kept abstract. -/
def applyFeatureRotation (d2r : ℚ → ℚ) (s : Scene) (i : Nat) (axes : Str)
    (value : ℚ) : Scene :=
  let radians := d2r value
  s.set i { objAt s i with
            rotation := axes.foldl (fun r ax => setAxis r ax radians) (objAt s i).rotation }

/-- JavaScript `a || b` on numbers: `0` is falsy and falls back to the
default. -/
def falsyOr (v dflt : ℚ) : ℚ := if v = 0 then dflt else v

/-- A generated GUI control: label, stored numeric value, slider
bounds, and the change callback registered on it. -/
structure Control where
  label : Str
  value : ℚ
  minVal : ℚ
  maxVal : ℚ
  onChange : ℚ → Scene → Scene

/-- One iteration of the `axes.forEach` loop of
`setupStandardNamingGUI`: build the control for one axis of one
feature, or nothing when the operation is unsupported.  `r2d` is
`THREE.MathUtils.radToDeg`. -/
def mkAxisControl (host : Host) (d2r r2d : ℚ → ℚ) (atts : List AttachEntry)
    (m : ObjectMap) (s : Scene) (f : FeatureEntry) (ax : Char) : Option Control :=
  let axisLower := ax.toLower
  let controlName := f.info.objectName ++ ' ' :: ax :: ' ' :: f.info.operation
  if toLowerS f.info.operation = str "scale" then
    let v := falsyOr (axisComp (objAt s f.object).scale axisLower) 1
    let minScale := max (0.01 : ℚ) (v * 0.1)
    let maxScale := v * 10
    some { label := controlName, value := v, minVal := minScale, maxVal := maxScale,
           onChange := fun val st =>
             processAttachments host atts m (applyFeatureScale st f.object [ax] val) }
  else if toLowerS f.info.operation = str "rotation" ∨ toLowerS f.info.operation = str "rotate" then
    let v := r2d (falsyOr (axisComp (objAt s f.object).rotation axisLower) 0)
    some { label := controlName, value := v, minVal := -180, maxVal := 180,
           onChange := fun val st =>
             processAttachments host atts m (applyFeatureRotation d2r st f.object [ax] val) }
  else none

/-- All controls generated for one scan, in creation order. -/
def featureControls (host : Host) (d2r r2d : ℚ → ℚ) (r : ScanResult)
    (s : Scene) : List Control :=
  r.features.flatMap (fun f =>
    f.info.axes.filterMap (mkAxisControl host d2r r2d r.attachments r.objectMap s f))

/-- The module-level GUI state of src/standardNaming.js: the two
folder handles, the generated controllers, plus a model of the GUI
host's live folders and a fresh-id counter. -/
structure GuiState where
  featuresFolder : Option Nat
  attachmentsFolder : Option Nat
  featureControllers : List Control
  liveFolders : List Nat
  nextId : Nat

/-- `clearStandardNamingGUI` of src/standardNaming.js: destroy each
existing folder, null the handles, and empty the controller list. -/
def clearStandardNamingGUI (g : GuiState) : GuiState :=
  let g1 :=
    match g.featuresFolder with
    | some id => { g with liveFolders := g.liveFolders.filter (fun x => x ≠ id),
                          featuresFolder := none }
    | none => g
  let g2 :=
    match g1.attachmentsFolder with
    | some id => { g1 with liveFolders := g1.liveFolders.filter (fun x => x ≠ id),
                           attachmentsFolder := none }
    | none => g1
  { g2 with featureControllers := [] }

/-- `setupStandardNamingGUI` of src/standardNaming.js: clear the old
session, scan the model, bail out when nothing matched, otherwise
create the folders and controls and run one initial attachment pass. -/
def setupStandardNamingGUI (host : Host) (d2r r2d : ℚ → ℚ) (g : GuiState)
    (s : Scene) (order : List Nat) : GuiState × Scene :=
  let g0 := clearStandardNamingGUI g
  let r := findStandardObjects s order
  if r.features.length = 0 ∧ r.attachments.length = 0 then (g0, s)
  else
    let g1 :=
      if r.features.length > 0 then
        { g0 with featuresFolder := some g0.nextId,
                  liveFolders := g0.nextId :: g0.liveFolders,
                  nextId := g0.nextId + 1,
                  featureControllers := featureControls host d2r r2d r s }
      else g0
    let g2 :=
      if r.attachments.length > 0 ∨ r.pivots.length > 0 then
        { g1 with attachmentsFolder := some g1.nextId,
                  liveFolders := g1.nextId :: g1.liveFolders,
                  nextId := g1.nextId + 1 }
      else g1
    (g2, processAttachments host r.attachments r.objectMap s)

/-- The GUI host's change dispatch for slider `i`: store the new value
on the bound object, then fire the registered `onChange` callback, as
lil-gui does. -/
def changeControl (cs : List Control) (s : Scene) (i : Nat) (v : ℚ) :
    List Control × Scene :=
  match cs[i]? with
  | none => (cs, s)
  | some c => (cs.set i { c with value := v }, c.onChange v s)


/-- A plain unparented node at the origin with unit scale, used for
concrete test scenes. -/
def mkNode (n : String) : Obj :=
  { name := str n, parent := none, position := ⟨0, 0, 0⟩, rotation := ⟨0, 0, 0⟩,
    scale := ⟨1, 1, 1⟩ }

/-- A concrete host for test scenes whose nodes have no transforming
ancestors: the world position is the local position and world-to-local
conversion is the identity. -/
def idHost : Host :=
  { getWorldPosition := fun s i => (objAt s i).position,
    worldToLocal := fun _ _ v => v }

/-- Concrete fixture scene: one feature node whose scale has a
nonzero, a fractional and a zero component. -/
def boxScene : Scene :=
  [{ mkNode "Feature_XYZ_Scale_Box1" with scale := ⟨2, 0.05, 0⟩ }]

/-- The feature entry the scan derives from `boxScene`. -/
def boxFeature : FeatureEntry :=
  ⟨⟨['X', 'Y', 'Z'], str "Scale", str "Box1", str "Feature_XYZ_Scale_Box1"⟩, 0⟩

/-- Concrete fixture scene: one rotation feature node. -/
def rotScene : Scene :=
  [{ mkNode "Feature_Z_Rotate_Leg_Back" with rotation := ⟨0, 0, 1⟩ }]

/-- The feature entry the scan derives from `rotScene`. -/
def rotFeature : FeatureEntry :=
  ⟨⟨['Z'], str "Rotate", str "Leg_Back", str "Feature_Z_Rotate_Leg_Back"⟩, 0⟩

/-- C1: a name yields a feature descriptor exactly when it starts with
`Feature_` and the remainder splits on `_` into at least 3 segments;
the descriptor's operation is segment 1 verbatim and its object name is
the remaining segments re-joined with `_`. -/
theorem parseFeatureName_correct (name : Str) :
    ((parseFeatureName name).isSome ↔
      (startsWithL name (str "Feature_") = true
        ∧ 3 ≤ (splitOnU (name.drop 8)).length))
    ∧ ∀ d, parseFeatureName name = some d →
        d.operation = (splitOnU (name.drop 8)).getD 1 []
        ∧ d.objectName = joinU ((splitOnU (name.drop 8)).drop 2) := by
  unfold parseFeatureName
  by_cases h : startsWithL name (str "Feature_")
  · by_cases hl : (splitOnU (name.drop 8)).length < 3
    · simp [h, hl]
      try omega
    · simp [h, hl]
      try omega
  · simp [h]

theorem parseFeatureName_correct_witness :
    (str "Scale") = (splitOnU ((str "Feature_XY_Scale_Box1").drop 8)).getD 1 []
    ∧ (str "Box1") = joinU ((splitOnU ((str "Feature_XY_Scale_Box1").drop 8)).drop 2) := by
  have h := (parseFeatureName_correct (str "Feature_XY_Scale_Box1")).2
      ⟨['X', 'Y'], str "Scale", str "Box1", str "Feature_XY_Scale_Box1"⟩ (by decide)
  exact ⟨h.1, h.2⟩

/-- C2 fails on the code: for `Feature_xX_Scale_B` the code returns
axes `['x', 'X']` — original case kept and duplicates retained — while
the claim (upper-cased, duplicates removed) would give `['X']`. -/
theorem parseFeatureName_axes_counterexample :
    (parseFeatureName (str "Feature_xX_Scale_B")).map (fun d => d.axes) = some ['x', 'X']
    ∧ (['x', 'X'] : Str) ≠ ['X'] := by decide

/-- C2 (amended): for every accepted name, the axes list consists of
the characters of segment 0 whose upper-casing lies in {X, Y, Z}, kept
verbatim (original case preserved, duplicates retained), in order of
appearance; other characters are silently dropped. -/
theorem parseFeatureName_axes_amended (name : Str) (d : FeatureInfo)
    (h : parseFeatureName name = some d) :
    d.axes = ((splitOnU (name.drop 8)).getD 0 []).filter
      (fun c => decide (c.toUpper = 'X' ∨ c.toUpper = 'Y' ∨ c.toUpper = 'Z')) := by
  unfold parseFeatureName at h
  simp only [] at h
  split at h
  · split at h
    · exact absurd h (by simp)
    · injection h with h
      subst h
      apply List.filter_congr
      intro c _
      by_cases h1 : c.toUpper = 'X' <;> by_cases h2 : c.toUpper = 'Y' <;>
        by_cases h3 : c.toUpper = 'Z' <;> simp [List.contains, h1, h2, h3]
  · exact absurd h (by simp)

theorem parseFeatureName_axes_amended_witness :
    (['X'] : Str) = ((splitOnU ((str "Feature_XQ_Scale_B").drop 8)).getD 0 []).filter
      (fun c => decide (c.toUpper = 'X' ∨ c.toUpper = 'Y' ∨ c.toUpper = 'Z')) :=
  parseFeatureName_axes_amended (str "Feature_XQ_Scale_B")
    ⟨['X'], str "Scale", str "B", str "Feature_XQ_Scale_B"⟩ (by decide)

/-- C8: a name starting with none of `Feature_`, `Attached_`, `Pivot_`
is rejected by both parsers, which are total functions and never
raise. -/
theorem parsers_reject_other_names (name : Str)
    (h1 : startsWithL name (str "Feature_") = false)
    (h2 : startsWithL name (str "Attached_") = false)
    (h3 : startsWithL name (str "Pivot_") = false) :
    parseFeatureName name = none ∧ parseAttachmentName name = none := by
  unfold parseFeatureName parseAttachmentName
  simp [h1, h2, h3]

theorem parsers_reject_other_names_witness :
    parseFeatureName (str "Box1") = none ∧ parseAttachmentName (str "Box1") = none :=
  parsers_reject_other_names (str "Box1") (by decide) (by decide) (by decide)

theorem scanStep_features (s : Scene) (r : ScanResult) (i : Nat) :
    (scanStep s r i).features = r.features ++
      (if (objAt s i).name = [] then []
       else match parseFeatureName (objAt s i).name with
         | some f => [⟨f, i⟩]
         | none => []) := by
  unfold scanStep
  by_cases hn : (objAt s i).name = []
  · simp [hn]
  · simp only [hn, if_neg, not_false_iff]
    cases hf : parseFeatureName (objAt s i).name with
    | some f => simp [hf]
    | none =>
      cases ha : parseAttachmentName (objAt s i).name with
      | some a =>
        simp only [hf, ha]
        by_cases h1 : a.type = str "Attached"
        · simp [h1]
        · rw [if_neg h1]
          by_cases h2 : a.type = str "Pivot"
          · rw [if_pos h2]
            simp
          · rw [if_neg h2]
            simp
      | none => simp [hf, ha]

theorem scanStep_attachments (s : Scene) (r : ScanResult) (i : Nat) :
    (scanStep s r i).attachments = r.attachments ++
      (if (objAt s i).name = [] then []
       else if (parseFeatureName (objAt s i).name).isSome then []
       else match parseAttachmentName (objAt s i).name with
         | some a => if a.type = str "Attached" then [⟨a, i⟩] else []
         | none => []) := by
  unfold scanStep
  by_cases hn : (objAt s i).name = []
  · simp [hn]
  · simp only [hn, if_neg, not_false_iff]
    cases hf : parseFeatureName (objAt s i).name with
    | some f => simp [hf]
    | none =>
      cases ha : parseAttachmentName (objAt s i).name with
      | some a =>
        simp only [hf, ha]
        by_cases h1 : a.type = str "Attached"
        · simp [h1]
        · rw [if_neg h1]
          by_cases h2 : a.type = str "Pivot"
          · rw [if_pos h2]
            simp [h1]
          · rw [if_neg h2]
            simp [h1]
      | none => simp [hf, ha]

theorem scanStep_pivots (s : Scene) (r : ScanResult) (i : Nat) :
    (scanStep s r i).pivots = r.pivots ++
      (if (objAt s i).name = [] then []
       else if (parseFeatureName (objAt s i).name).isSome then []
       else match parseAttachmentName (objAt s i).name with
         | some a =>
           if a.type = str "Attached" then []
           else if a.type = str "Pivot" then [⟨a, i⟩] else []
         | none => []) := by
  unfold scanStep
  by_cases hn : (objAt s i).name = []
  · simp [hn]
  · simp only [hn, if_neg, not_false_iff]
    cases hf : parseFeatureName (objAt s i).name with
    | some f => simp [hf]
    | none =>
      cases ha : parseAttachmentName (objAt s i).name with
      | some a =>
        simp only [hf, ha]
        by_cases h1 : a.type = str "Attached"
        · simp [h1]
        · rw [if_neg h1, if_neg h1]
          by_cases h2 : a.type = str "Pivot"
          · rw [if_pos h2, if_pos h2]
            simp
          · rw [if_neg h2, if_neg h2]
            simp
      | none => simp [hf, ha]

theorem mapGet_mapSet (m : ObjectMap) (k : Str) (v : Nat) (n : Str) :
    mapGet (mapSet m k v) n = if n = k then some v else mapGet m n := by
  by_cases h : n = k
  · simp [mapGet, mapSet, List.lookup, h]
  · have hb : (n == k) = false := by
      simp [h]
    simp [mapGet, mapSet, List.lookup, hb, h]

theorem scanStep_map (s : Scene) (r : ScanResult) (i : Nat) (n : Str) :
    mapGet (scanStep s r i).objectMap n =
      if (objAt s i).name = [] then mapGet r.objectMap n
      else if n = (objAt s i).name then some i
      else mapGet r.objectMap n := by
  unfold scanStep
  by_cases hn : (objAt s i).name = []
  · simp [hn]
  · simp only [hn, if_neg, not_false_iff]
    cases hf : parseFeatureName (objAt s i).name with
    | some f => simp [hf, mapGet_mapSet]
    | none =>
      cases ha : parseAttachmentName (objAt s i).name with
      | some a =>
        simp only [hf, ha]
        by_cases h1 : a.type = str "Attached"
        · simp [h1, mapGet_mapSet]
        · rw [if_neg h1]
          by_cases h2 : a.type = str "Pivot"
          · rw [if_pos h2]
            simp [mapGet_mapSet]
          · rw [if_neg h2]
            simp [mapGet_mapSet]
      | none => simp [hf, ha, mapGet_mapSet]

theorem scan_foldl_features (s : Scene) (order : List Nat) (r0 : ScanResult) :
    (order.foldl (scanStep s) r0).features = r0.features ++ order.filterMap (fun i =>
      if (objAt s i).name = [] then none
      else (parseFeatureName (objAt s i).name).map (fun f => (⟨f, i⟩ : FeatureEntry))) := by
  induction order generalizing r0 with
  | nil => simp
  | cons i rest ih =>
    rw [List.foldl_cons, ih, scanStep_features, List.filterMap_cons]
    by_cases hn : (objAt s i).name = []
    · simp [hn]
    · cases hf : parseFeatureName (objAt s i).name <;> simp [hn, hf]

theorem scan_foldl_attachments (s : Scene) (order : List Nat) (r0 : ScanResult) :
    (order.foldl (scanStep s) r0).attachments = r0.attachments ++ order.filterMap (fun i =>
      if (objAt s i).name = [] then none
      else if (parseFeatureName (objAt s i).name).isSome then none
      else match parseAttachmentName (objAt s i).name with
        | some a => if a.type = str "Attached" then some (⟨a, i⟩ : AttachEntry) else none
        | none => none) := by
  induction order generalizing r0 with
  | nil => simp
  | cons i rest ih =>
    rw [List.foldl_cons, ih, scanStep_attachments, List.filterMap_cons]
    by_cases hn : (objAt s i).name = []
    · simp [hn]
    · cases hf : parseFeatureName (objAt s i).name with
      | some f => simp [hn, hf]
      | none =>
        cases ha : parseAttachmentName (objAt s i).name with
        | some a =>
          by_cases h1 : a.type = str "Attached" <;> simp [hn, hf, ha, h1]
        | none => simp [hn, hf, ha]

theorem scan_foldl_pivots (s : Scene) (order : List Nat) (r0 : ScanResult) :
    (order.foldl (scanStep s) r0).pivots = r0.pivots ++ order.filterMap (fun i =>
      if (objAt s i).name = [] then none
      else if (parseFeatureName (objAt s i).name).isSome then none
      else match parseAttachmentName (objAt s i).name with
        | some a =>
          if a.type = str "Attached" then none
          else if a.type = str "Pivot" then some (⟨a, i⟩ : AttachEntry) else none
        | none => none) := by
  induction order generalizing r0 with
  | nil => simp
  | cons i rest ih =>
    rw [List.foldl_cons, ih, scanStep_pivots, List.filterMap_cons]
    by_cases hn : (objAt s i).name = []
    · simp [hn]
    · cases hf : parseFeatureName (objAt s i).name with
      | some f => simp [hn, hf]
      | none =>
        cases ha : parseAttachmentName (objAt s i).name with
        | some a =>
          by_cases h1 : a.type = str "Attached"
          · simp [hn, hf, ha, h1]
          · by_cases h2 : a.type = str "Pivot"
            · simp [hn, hf, ha, h1, h2, show ¬(str "Pivot" = str "Attached") from by decide]
            · simp [hn, hf, ha, h1, h2]
        | none => simp [hn, hf, ha]

theorem scan_foldl_map (s : Scene) (order : List Nat) (r0 : ScanResult) (n : Str)
    (hn : n ≠ []) :
    mapGet (order.foldl (scanStep s) r0).objectMap n =
      match (order.filter (fun i => (objAt s i).name == n)).getLast? with
      | some j => some j
      | none => mapGet r0.objectMap n := by
  induction order generalizing r0 with
  | nil => simp
  | cons i rest ih =>
    rw [List.foldl_cons, ih, List.filter_cons]
    by_cases hi : (objAt s i).name = n
    · have hb : ((objAt s i).name == n) = true := by
        simp [hi]
      rw [if_pos hb, List.getLast?_cons]
      cases hl : (List.filter (fun i => (objAt s i).name == n) rest).getLast? with
      | some j => simp
      | none =>
        simp only [Option.getD_none]
        rw [scanStep_map]
        have hne : ¬(objAt s i).name = [] := by
          rw [hi]
          exact hn
        simp [hne, hi, hn]
    · have hb : ((objAt s i).name == n) = false := by
        simp [hi]
      rw [if_neg (by simp [hb])]
      cases hl : (List.filter (fun i => (objAt s i).name == n) rest).getLast? with
      | some j => simp
      | none =>
        simp only []
        rw [scanStep_map]
        by_cases hne : (objAt s i).name = []
        · simp [hne]
        · have hi2 : ¬n = (objAt s i).name := fun h => hi h.symm
          simp [hne, hi2]

theorem scan_foldl_map_nil (s : Scene) (order : List Nat) (r0 : ScanResult) :
    mapGet (order.foldl (scanStep s) r0).objectMap [] = mapGet r0.objectMap [] := by
  induction order generalizing r0 with
  | nil => rfl
  | cons i rest ih =>
    rw [List.foldl_cons, ih, scanStep_map]
    by_cases hne : (objAt s i).name = []
    · simp [hne]
    · have h2 : ¬([] : Str) = (objAt s i).name := fun h => hne h.symm
      simp [hne, h2]

/-- C4: the scan records exactly the feature-parsable named nodes as
features; a node is attachment-classified only when its name is
nonempty and not feature-parsable, under `attachments` for kind
`Attached` and under `pivots` for kind `Pivot`; the index maps every
nonempty name to the last visited node bearing it, and unnamed nodes
are never indexed. -/
theorem findStandardObjects_correct (s : Scene) (order : List Nat) :
    (findStandardObjects s order).features = order.filterMap (fun i =>
        if (objAt s i).name = [] then none
        else (parseFeatureName (objAt s i).name).map (fun f => (⟨f, i⟩ : FeatureEntry)))
    ∧ (findStandardObjects s order).attachments = order.filterMap (fun i =>
        if (objAt s i).name = [] then none
        else if (parseFeatureName (objAt s i).name).isSome then none
        else match parseAttachmentName (objAt s i).name with
          | some a => if a.type = str "Attached" then some (⟨a, i⟩ : AttachEntry) else none
          | none => none)
    ∧ (findStandardObjects s order).pivots = order.filterMap (fun i =>
        if (objAt s i).name = [] then none
        else if (parseFeatureName (objAt s i).name).isSome then none
        else match parseAttachmentName (objAt s i).name with
          | some a =>
            if a.type = str "Attached" then none
            else if a.type = str "Pivot" then some (⟨a, i⟩ : AttachEntry) else none
          | none => none)
    ∧ (∀ n, n ≠ [] → mapGet (findStandardObjects s order).objectMap n =
        (order.filter (fun i => (objAt s i).name == n)).getLast?)
    ∧ mapGet (findStandardObjects s order).objectMap [] = none := by
  refine ⟨?_, ?_, ?_, ?_, ?_⟩
  · rw [findStandardObjects, scan_foldl_features]
    rfl
  · rw [findStandardObjects, scan_foldl_attachments]
    rfl
  · rw [findStandardObjects, scan_foldl_pivots]
    rfl
  · intro n hn
    rw [findStandardObjects, scan_foldl_map s order _ n hn]
    cases (order.filter (fun i => (objAt s i).name == n)).getLast? <;> rfl
  · rw [findStandardObjects, scan_foldl_map_nil]
    rfl

theorem findStandardObjects_correct_witness :
    mapGet (findStandardObjects
        [mkNode "Feature_X_Scale_Top", mkNode "Pivot_hinge", mkNode "Attached_hinge"]
        [0, 1, 2]).objectMap (str "Pivot_hinge") = some 1 := by
  have h := (findStandardObjects_correct
      [mkNode "Feature_X_Scale_Top", mkNode "Pivot_hinge", mkNode "Attached_hinge"]
      [0, 1, 2]).2.2.2.1 (str "Pivot_hinge") (by decide)
  rw [h]
  decide

theorem char_toNat_inj {c d : Char} (h : c.toNat = d.toNat) : c = d := by
  apply Char.ext
  have h2 : c.val.toBitVec = d.val.toBitVec := by
    apply BitVec.eq_of_toNat_eq
    exact h
  exact UInt32.eq_of_toBitVec_eq h2

theorem charUpper_mem (c : Char)
    (h : c.toUpper = 'X' ∨ c.toUpper = 'Y' ∨ c.toUpper = 'Z') :
    c = 'x' ∨ c = 'X' ∨ c = 'y' ∨ c = 'Y' ∨ c = 'z' ∨ c = 'Z' := by
  simp only [Char.toUpper] at h
  split at h
  · rename_i hin
    obtain ⟨h1, h2⟩ := hin
    have hc := Char.ofNat_toNat c
    obtain ⟨k, hkeq, hk1, hk2⟩ : ∃ k, c.toNat = k ∧ 97 ≤ k ∧ k ≤ 122 :=
      ⟨c.toNat, rfl, h1, h2⟩
    rw [hkeq] at h hc
    interval_cases k <;>
      first
        | exact absurd h (by decide)
        | (left; rw [← hc] <;> decide)
        | (right; right; left; rw [← hc] <;> decide)
        | (right; right; right; right; left; rw [← hc] <;> decide)
  · rcases h with h | h | h
    · exact Or.inr (Or.inl h)
    · exact Or.inr (Or.inr (Or.inr (Or.inl h)))
    · exact Or.inr (Or.inr (Or.inr (Or.inr (Or.inr h))))

theorem objAt_set_ne (s : Scene) (j : Nat) (x : Obj) (i : Nat) (h : i ≠ j) :
    objAt (s.set j x) i = objAt s i := by
  unfold objAt
  rw [List.getD_eq_getElem?_getD, List.getD_eq_getElem?_getD,
    List.getElem?_set_ne (Ne.symm h)]

theorem objAt_set_self (s : Scene) (j : Nat) (x : Obj) (h : j < s.length) :
    objAt (s.set j x) j = x := by
  unfold objAt
  rw [List.getD_eq_getElem?_getD, List.getElem?_set_self h]
  rfl

/-- C3: the propagator treats each attachment in order: the driving
node is `Pivot_<target>` if indexed, else `Attached_<target>`; a
dangling reference leaves the scene untouched for that attachment
while the remaining ones are still processed; a resolved one rewrites
exactly the attachment node's local position to the driving node's
world position converted into the space of the attachment's parent
(identity conversion when it has no parent). -/
theorem processAttachments_correct (host : Host) (m : ObjectMap) (a : AttachEntry)
    (rest : List AttachEntry) (s : Scene) :
    processAttachments host [] m s = s
    ∧ processAttachments host (a :: rest) m s =
        processAttachments host rest m
          (match (mapGet m (str "Pivot_" ++ a.info.targetName)).orElse
              (fun _ => mapGet m (str "Attached_" ++ a.info.targetName)) with
           | none => s
           | some t =>
             setPosition s a.object
               (match (objAt s a.object).parent with
                | some p => host.worldToLocal s p (host.getWorldPosition s t)
                | none => host.getWorldPosition s t))
    ∧ (∀ i p, i ≠ a.object → objAt (setPosition s a.object p) i = objAt s i)
    ∧ (∀ p, a.object < s.length →
        objAt (setPosition s a.object p) a.object = { objAt s a.object with position := p }) := by
  refine ⟨rfl, ?_, ?_, ?_⟩
  · rw [processAttachments, processAttachments, List.foldl_cons]
    cases hr : (mapGet m (str "Pivot_" ++ a.info.targetName)).orElse
        (fun _ => mapGet m (str "Attached_" ++ a.info.targetName)) with
    | none => rw [attachStep, hr]
    | some t => rw [attachStep, hr]
  · intro i p h
    exact objAt_set_ne s a.object _ i h
  · intro p h
    exact objAt_set_self s a.object _ h

theorem processAttachments_correct_witness :
    objAt (setPosition [mkNode "Attached_hinge", mkNode "Pivot_hinge"] 0 ⟨1, 2, 3⟩) 1
      = objAt [mkNode "Attached_hinge", mkNode "Pivot_hinge"] 1
    ∧ objAt (setPosition [mkNode "Attached_hinge", mkNode "Pivot_hinge"] 0 ⟨1, 2, 3⟩) 0
      = { objAt [mkNode "Attached_hinge", mkNode "Pivot_hinge"] 0 with position := ⟨1, 2, 3⟩ } :=
  ⟨(processAttachments_correct idHost [(str "Pivot_hinge", 1)]
      ⟨⟨str "Attached", str "hinge", str "Attached_hinge"⟩, 0⟩ []
      [mkNode "Attached_hinge", mkNode "Pivot_hinge"]).2.2.1 1 ⟨1, 2, 3⟩ (by decide),
   (processAttachments_correct idHost [(str "Pivot_hinge", 1)]
      ⟨⟨str "Attached", str "hinge", str "Attached_hinge"⟩, 0⟩ []
      [mkNode "Attached_hinge", mkNode "Pivot_hinge"]).2.2.2 ⟨1, 2, 3⟩ (by decide)⟩

/-- C9: clearing the naming GUI is idempotent, is safe with no prior
setup, and always leaves an empty session: no folder handles and no
generated controllers. -/
theorem clearStandardNamingGUI_correct (g : GuiState) :
    clearStandardNamingGUI (clearStandardNamingGUI g) = clearStandardNamingGUI g
    ∧ (clearStandardNamingGUI g).featuresFolder = none
    ∧ (clearStandardNamingGUI g).attachmentsFolder = none
    ∧ (clearStandardNamingGUI g).featureControllers = []
    ∧ clearStandardNamingGUI ⟨none, none, [], [], 0⟩ = ⟨none, none, [], [], 0⟩ := by
  unfold clearStandardNamingGUI
  cases hf : g.featuresFolder <;> cases ha : g.attachmentsFolder <;> simp [hf, ha]

theorem falsyOr_zero (v : ℚ) : falsyOr v 0 = v := by
  rw [falsyOr]
  split <;> simp_all

theorem setAxis_correct (sc : Vec3) (ax : Char) (v : ℚ)
    (h : ax.toUpper = 'X' ∨ ax.toUpper = 'Y' ∨ ax.toUpper = 'Z') :
    axisComp (setAxis sc ax v) ax.toLower = v
    ∧ ∀ ch, (ch = 'x' ∨ ch = 'y' ∨ ch = 'z') → ch ≠ ax.toLower →
        axisComp (setAxis sc ax v) ch = axisComp sc ch := by
  rcases charUpper_mem ax h with h | h | h | h | h | h <;> subst h <;>
    refine ⟨rfl, ?_⟩ <;> rintro ch (rfl | rfl | rfl) hne <;>
      first | rfl | exact absurd rfl hne

theorem applyFeatureScale_single (st : Scene) (o : Nat) (ax : Char) (v : ℚ)
    (ho : o < st.length) :
    objAt (applyFeatureScale st o [ax] v) o =
      { objAt st o with scale := setAxis (objAt st o).scale ax v }
    ∧ ∀ j, j ≠ o → objAt (applyFeatureScale st o [ax] v) j = objAt st j := by
  constructor
  · exact objAt_set_self st o _ ho
  · intro j hj
    exact objAt_set_ne st o _ j hj

theorem applyFeatureRotation_single (d2r : ℚ → ℚ) (st : Scene) (o : Nat) (ax : Char)
    (v : ℚ) (ho : o < st.length) :
    objAt (applyFeatureRotation d2r st o [ax] v) o =
      { objAt st o with rotation := setAxis (objAt st o).rotation ax (d2r v) }
    ∧ ∀ j, j ≠ o → objAt (applyFeatureRotation d2r st o [ax] v) j = objAt st j := by
  constructor
  · exact objAt_set_self st o _ ho
  · intro j hj
    exact objAt_set_ne st o _ j hj

/-- C6: a generated scale control starts from the node's scale
component on its axis (through the code's falsy-or-1.0 default), with
slider bounds min = max(0.01, initial*0.1) and max = initial*10. -/
theorem scaleControl_bounds (host : Host) (d2r r2d : ℚ → ℚ)
    (atts : List AttachEntry) (m : ObjectMap) (s : Scene) (f : FeatureEntry) (ax : Char)
    (hop : toLowerS f.info.operation = str "scale") :
    ∃ c, mkAxisControl host d2r r2d atts m s f ax = some c
      ∧ c.value = falsyOr (axisComp (objAt s f.object).scale ax.toLower) 1
      ∧ c.minVal = max (0.01 : ℚ) (c.value * 0.1)
      ∧ c.maxVal = c.value * 10 := by
  unfold mkAxisControl
  rw [if_pos hop]
  exact ⟨_, rfl, rfl, rfl, rfl⟩

theorem scaleControl_bounds_witness :
    (∃ c, mkAxisControl idHost (fun q => q) (fun q => q) [] [] boxScene boxFeature 'X' = some c
      ∧ c.value = 2 ∧ c.minVal = 0.2 ∧ c.maxVal = 20)
    ∧ (∃ c, mkAxisControl idHost (fun q => q) (fun q => q) [] [] boxScene boxFeature 'Y' = some c
      ∧ c.value = 0.05 ∧ c.minVal = 0.01 ∧ c.maxVal = 0.5) := by
  constructor
  · obtain ⟨c, hc, hv, hmin, hmax⟩ :=
      scaleControl_bounds idHost (fun q => q) (fun q => q) [] [] boxScene boxFeature 'X'
        (by decide)
    have hax : axisComp (objAt boxScene boxFeature.object).scale ('X'.toLower) = 2 := rfl
    have hcv : c.value = 2 := by
      rw [hv, hax]
      norm_num [falsyOr]
    refine ⟨c, hc, hcv, ?_, ?_⟩
    · rw [hmin, hcv]
      norm_num
    · rw [hmax, hcv]
      norm_num
  · obtain ⟨c, hc, hv, hmin, hmax⟩ :=
      scaleControl_bounds idHost (fun q => q) (fun q => q) [] [] boxScene boxFeature 'Y'
        (by decide)
    have hax : axisComp (objAt boxScene boxFeature.object).scale ('Y'.toLower) = 0.05 := rfl
    have hcv : c.value = 0.05 := by
      rw [hv, hax]
      norm_num [falsyOr]
    refine ⟨c, hc, hcv, ?_, ?_⟩
    · rw [hmin, hcv]
      norm_num
    · rw [hmax, hcv]
      norm_num

/-- C10: a present scale component equal to exactly 0 is treated like
unset by the falsy-or default: the control starts at 1.0 with slider
range [0.1, 10]. -/
theorem scaleControl_zero_default (host : Host) (d2r r2d : ℚ → ℚ)
    (atts : List AttachEntry) (m : ObjectMap) (s : Scene) (f : FeatureEntry) (ax : Char)
    (hop : toLowerS f.info.operation = str "scale")
    (h0 : axisComp (objAt s f.object).scale ax.toLower = 0) :
    ∃ c, mkAxisControl host d2r r2d atts m s f ax = some c
      ∧ c.value = 1 ∧ c.minVal = 0.1 ∧ c.maxVal = 10 := by
  unfold mkAxisControl
  rw [if_pos hop]
  refine ⟨_, rfl, ?_, ?_, ?_⟩
  · show falsyOr (axisComp (objAt s f.object).scale ax.toLower) 1 = 1
    rw [h0]
    simp [falsyOr]
  · show max (0.01 : ℚ)
        (falsyOr (axisComp (objAt s f.object).scale ax.toLower) 1 * 0.1) = 0.1
    rw [h0]
    norm_num [falsyOr]
  · show falsyOr (axisComp (objAt s f.object).scale ax.toLower) 1 * 10 = 10
    rw [h0]
    norm_num [falsyOr]

theorem scaleControl_zero_default_witness :
    ∃ c, mkAxisControl idHost (fun q => q) (fun q => q) [] [] boxScene boxFeature 'Z' = some c
      ∧ c.value = 1 ∧ c.minVal = 0.1 ∧ c.maxVal = 10 :=
  scaleControl_zero_default idHost (fun q => q) (fun q => q) [] [] boxScene boxFeature 'Z'
    (by decide) rfl

/-- C7: a rotation control (operation case-insensitively `rotation` or
`rotate`) starts from the node's rotation component on its axis
converted to degrees, has fixed bounds [-180, 180], and on change
writes the radian conversion of the new value to exactly its own axis
of the target's rotation before repropagating attachments. -/
theorem rotationControl_correct (host : Host) (d2r r2d : ℚ → ℚ)
    (atts : List AttachEntry) (m : ObjectMap) (s : Scene) (f : FeatureEntry) (ax : Char)
    (hop : toLowerS f.info.operation = str "rotation"
      ∨ toLowerS f.info.operation = str "rotate") :
    ∃ c, mkAxisControl host d2r r2d atts m s f ax = some c
      ∧ c.value = r2d (axisComp (objAt s f.object).rotation ax.toLower)
      ∧ c.minVal = -180 ∧ c.maxVal = 180
      ∧ (∀ v st, c.onChange v st =
          processAttachments host atts m (applyFeatureRotation d2r st f.object [ax] v))
      ∧ (∀ v st, f.object < st.length →
          (ax.toUpper = 'X' ∨ ax.toUpper = 'Y' ∨ ax.toUpper = 'Z') →
          axisComp (objAt (applyFeatureRotation d2r st f.object [ax] v) f.object).rotation
              ax.toLower = d2r v
          ∧ (∀ ch, (ch = 'x' ∨ ch = 'y' ∨ ch = 'z') → ch ≠ ax.toLower →
              axisComp (objAt (applyFeatureRotation d2r st f.object [ax] v) f.object).rotation
                  ch = axisComp (objAt st f.object).rotation ch)
          ∧ (∀ j, j ≠ f.object →
              objAt (applyFeatureRotation d2r st f.object [ax] v) j = objAt st j)) := by
  have hns : ¬toLowerS f.info.operation = str "scale" := by
    rcases hop with h | h <;> rw [h] <;> decide
  unfold mkAxisControl
  rw [if_neg hns, if_pos hop]
  refine ⟨_, rfl, ?_, rfl, rfl, fun v st => rfl, ?_⟩
  · show r2d (falsyOr (axisComp (objAt s f.object).rotation ax.toLower) 0)
      = r2d (axisComp (objAt s f.object).rotation ax.toLower)
    rw [falsyOr_zero]
  · intro v st hlt hax
    obtain ⟨h1, h2⟩ := applyFeatureRotation_single d2r st f.object ax v hlt
    refine ⟨?_, ?_, h2⟩
    · rw [h1]
      exact (setAxis_correct _ ax (d2r v) hax).1
    · intro ch hch hne
      rw [h1]
      exact (setAxis_correct _ ax (d2r v) hax).2 ch hch hne

theorem rotationControl_correct_witness :
    ∃ c, mkAxisControl idHost (fun q => q) (fun q => q) [] [] rotScene rotFeature 'Z' = some c
      ∧ c.value = 1 ∧ c.minVal = -180 ∧ c.maxVal = 180
      ∧ axisComp (objAt (applyFeatureRotation (fun q => q) rotScene 0 ['Z'] 90) 0).rotation 'z'
          = 90 := by
  obtain ⟨c, hc, hv, hmin, hmax, hcb, hwrite⟩ :=
    rotationControl_correct idHost (fun q => q) (fun q => q) [] [] rotScene rotFeature 'Z'
      (Or.inr (by decide))
  refine ⟨c, hc, ?_, hmin, hmax, ?_⟩
  · rw [hv]
    rfl
  · exact (hwrite 90 rotScene (by decide) (by decide)).1

theorem length_filterMap_all_some {α β : Type} (g : α → Option β) (l : List α)
    (h : ∀ a ∈ l, (g a).isSome) : (l.filterMap g).length = l.length := by
  induction l with
  | nil => rfl
  | cons a l ih =>
    rw [List.filterMap_cons]
    cases hg : g a with
    | none =>
      have h2 := h a (List.mem_cons_self a l)
      rw [hg] at h2
      exact absurd h2 (by simp)
    | some b =>
      simp only [List.length_cons]
      rw [ih (fun x hx => h x (List.mem_cons_of_mem a hx))]

theorem parseFeatureName_axes_eq (name : Str) (d : FeatureInfo)
    (h : parseFeatureName name = some d) :
    d.axes = ((splitOnU (name.drop 8)).getD 0 []).filter
      (fun c => ['X', 'Y', 'Z'].contains c.toUpper) := by
  unfold parseFeatureName at h
  simp only [] at h
  split at h
  · split at h
    · exact absurd h (by simp)
    · injection h with h
      subst h
      rfl
  · exact absurd h (by simp)

theorem mem_features_axes (s : Scene) (order : List Nat) (f : FeatureEntry)
    (hf : f ∈ (findStandardObjects s order).features) (ax : Char)
    (hax : ax ∈ f.info.axes) :
    ax.toUpper = 'X' ∨ ax.toUpper = 'Y' ∨ ax.toUpper = 'Z' := by
  rw [findStandardObjects, scan_foldl_features] at hf
  have hf2 : f ∈ List.filterMap (fun i =>
      if (objAt s i).name = [] then none
      else (parseFeatureName (objAt s i).name).map (fun fi => (⟨fi, i⟩ : FeatureEntry)))
      order := by
    simpa using hf
  obtain ⟨i, hi, hFi⟩ := List.mem_filterMap.mp hf2
  split at hFi
  · exact absurd hFi (by simp)
  · cases hp : parseFeatureName (objAt s i).name with
    | none =>
      rw [hp] at hFi
      exact absurd hFi (by simp)
    | some fi =>
      rw [hp] at hFi
      simp only [Option.map_some'] at hFi
      injection hFi with hFi
      subst hFi
      have haxeq := parseFeatureName_axes_eq _ fi hp
      simp only [] at hax
      rw [haxeq] at hax
      have hmem := (List.mem_filter.mp hax).2
      simpa [List.contains] using hmem

/-- C5: one control is generated per axis of a Scale feature (two axes
give exactly two controls); dispatching a change of value `v` on one
control stores `v` in that control alone and leaves every other
control's stored value untouched; and a scale control's callback
writes `v` to exactly its own axis of the target node's scale -- other
axes, the rotation, and all other nodes unchanged -- and then runs the
attachment propagator over the attachment set and index captured at
scan time. -/
theorem scaleControls_independent (host : Host) (d2r r2d : ℚ → ℚ) (s : Scene)
    (order : List Nat) :
    (∀ f, f ∈ (findStandardObjects s order).features →
      toLowerS f.info.operation = str "scale" →
      (f.info.axes.filterMap (mkAxisControl host d2r r2d
          (findStandardObjects s order).attachments
          (findStandardObjects s order).objectMap s f)).length = f.info.axes.length)
    ∧ (∀ i v st c,
        (featureControls host d2r r2d (findStandardObjects s order) s)[i]? = some c →
        (changeControl (featureControls host d2r r2d (findStandardObjects s order) s)
            st i v).1[i]? = some { c with value := v })
    ∧ (∀ i j v st, j ≠ i →
        (changeControl (featureControls host d2r r2d (findStandardObjects s order) s)
            st i v).1[j]?
          = (featureControls host d2r r2d (findStandardObjects s order) s)[j]?)
    ∧ (∀ f ax c, f ∈ (findStandardObjects s order).features → ax ∈ f.info.axes →
        toLowerS f.info.operation = str "scale" →
        mkAxisControl host d2r r2d (findStandardObjects s order).attachments
          (findStandardObjects s order).objectMap s f ax = some c →
        (∀ v st, c.onChange v st =
          processAttachments host (findStandardObjects s order).attachments
            (findStandardObjects s order).objectMap
            (applyFeatureScale st f.object [ax] v))
        ∧ (∀ v st, f.object < st.length →
            axisComp (objAt (applyFeatureScale st f.object [ax] v) f.object).scale
                ax.toLower = v
            ∧ (∀ ch, (ch = 'x' ∨ ch = 'y' ∨ ch = 'z') → ch ≠ ax.toLower →
                axisComp (objAt (applyFeatureScale st f.object [ax] v) f.object).scale ch
                  = axisComp (objAt st f.object).scale ch)
            ∧ (objAt (applyFeatureScale st f.object [ax] v) f.object).rotation
                = (objAt st f.object).rotation
            ∧ (∀ j, j ≠ f.object →
                objAt (applyFeatureScale st f.object [ax] v) j = objAt st j))) := by
  refine ⟨?_, ?_, ?_, ?_⟩
  · intro f hf hop
    apply length_filterMap_all_some
    intro ax hax
    unfold mkAxisControl
    rw [if_pos hop]
    simp
  · intro i v st c hc
    unfold changeControl
    rw [hc]
    exact List.getElem?_set_self (List.getElem?_eq_some.mp hc).1
  · intro i j v st hne
    unfold changeControl
    cases hc : (featureControls host d2r r2d (findStandardObjects s order) s)[i]? with
    | none => rfl
    | some c => exact List.getElem?_set_ne (Ne.symm hne)
  · intro f ax c hf hax hop hmk
    have haxU := mem_features_axes s order f hf ax hax
    unfold mkAxisControl at hmk
    rw [if_pos hop] at hmk
    injection hmk with hmk
    subst hmk
    refine ⟨fun v st => rfl, fun v st hlt => ?_⟩
    obtain ⟨h1, h2⟩ := applyFeatureScale_single st f.object ax v hlt
    refine ⟨?_, ?_, ?_, h2⟩
    · rw [h1]
      exact (setAxis_correct _ ax v haxU).1
    · intro ch hch hne
      rw [h1]
      exact (setAxis_correct _ ax v haxU).2 ch hch hne
    · rw [h1]

theorem scaleControls_independent_witness :
    ((⟨⟨['X', 'Y'], str "Scale", str "Box1", str "Feature_XY_Scale_Box1"⟩, 0⟩
        : FeatureEntry).info.axes.filterMap
      (mkAxisControl idHost (fun q => q) (fun q => q)
        (findStandardObjects [mkNode "Feature_XY_Scale_Box1"] [0]).attachments
        (findStandardObjects [mkNode "Feature_XY_Scale_Box1"] [0]).objectMap
        [mkNode "Feature_XY_Scale_Box1"]
        ⟨⟨['X', 'Y'], str "Scale", str "Box1", str "Feature_XY_Scale_Box1"⟩, 0⟩)).length = 2
    ∧ (changeControl (featureControls idHost (fun q => q) (fun q => q)
          (findStandardObjects [mkNode "Feature_XY_Scale_Box1"] [0])
          [mkNode "Feature_XY_Scale_Box1"])
        [mkNode "Feature_XY_Scale_Box1"] 0 2).1[1]?
      = (featureControls idHost (fun q => q) (fun q => q)
          (findStandardObjects [mkNode "Feature_XY_Scale_Box1"] [0])
          [mkNode "Feature_XY_Scale_Box1"])[1]? := by
  constructor
  · have h := (scaleControls_independent idHost (fun q => q) (fun q => q)
        [mkNode "Feature_XY_Scale_Box1"] [0]).1
        ⟨⟨['X', 'Y'], str "Scale", str "Box1", str "Feature_XY_Scale_Box1"⟩, 0⟩
        (by decide) (by decide)
    rw [h]
    rfl
  · exact (scaleControls_independent idHost (fun q => q) (fun q => q)
        [mkNode "Feature_XY_Scale_Box1"] [0]).2.2.1 0 1 2 [mkNode "Feature_XY_Scale_Box1"]
        (by decide)
